import Mathlib

/-!
Verification of the Dictamed transcript alignment tracker and transcription
route. Definitions are shallow embeddings of the TypeScript source in
src/components/audio-input.tsx, src/components/audio-upload.tsx and
src/app/api/transcribe/route.ts. Timestamps are modelled as rational numbers;
the source only compares them with non-strict order, so the order-theoretic
structure carries over.
-/

/-- Word-level timestamped unit, after interface WordTimestamp in
audio-input.tsx and audio-upload.tsx. The source field named end is a
reserved word in Lean and is rendered endSeconds. -/
structure WordTimestamp where
  word : String
  start : ℚ
  endSeconds : ℚ
deriving Repr, DecidableEq

/-- Segment-level unit, after interface TranscriptionSegment. Only the
fields start, endSeconds (source name end) and text are read by the
tracker; the rest are carried through unchanged. -/
structure TranscriptionSegment where
  id : Int
  seek : Int
  start : ℚ
  endSeconds : ℚ
  text : String
  tokens : List Int
  temperature : ℚ
  avg_logprob : ℚ
  compression_ratio : ℚ
  no_speech_prob : ℚ
deriving Repr, DecidableEq

/-- Metadata block of a transcription result, after the metadata field of
interface TranscriptionResult. -/
structure TranscribeMetadata where
  processedAt : String
  model : String
  medicalContext : Bool
  confidence : String
  hasWordTimestamps : Option Bool
deriving Repr, DecidableEq

/-- Transcription result consumed by the components, after interface
TranscriptionResult in audio-input.tsx and audio-upload.tsx. Optional
fields are Option; absent in TypeScript corresponds to none. -/
structure TranscriptionResult where
  text : String
  duration : Option ℚ
  language : Option String
  segments : Option (List TranscriptionSegment)
  words : Option (List WordTimestamp)
  audioUrl : Option String
  audioFileName : Option String
  metadata : Option TranscribeMetadata
deriving Repr, DecidableEq

/-- The interval-membership test the findCurrentWord loop body performs at
one index: currentTime at least word.start and at most word.endSeconds,
both endpoints inclusive (audio-input.tsx line 123). Returns false when the
index is out of range, where the loop performs no test at all. -/
def unitMatches (words : List WordTimestamp) (j : Nat) (t : ℚ) : Bool :=
  match words.get? j with
  | some w => decide (w.start ≤ t ∧ t ≤ w.endSeconds)
  | none => false

/-- Indexed scan underlying findCurrentWord: walks the remaining list with
the index of its head, returning the first index whose interval contains
the clock value. -/
def findCurrentWordAux (t : ℚ) : List WordTimestamp → Nat → Option Nat
  | [], _ => none
  | w :: ws, i =>
      if w.start ≤ t ∧ t ≤ w.endSeconds then some i
      else findCurrentWordAux t ws (i + 1)

/-- Embedding of findCurrentWord (audio-input.tsx lines 114 to 128 and
audio-upload.tsx lines 152 to 166): linear scan from index 0, first
matching interval wins, null (none) when no interval contains the clock. -/
def findCurrentWord (words : List WordTimestamp) (t : ℚ) : Option Nat :=
  findCurrentWordAux t words 0

theorem unitMatches_cons_zero (w : WordTimestamp) (ws : List WordTimestamp) (t : ℚ) :
    unitMatches (w :: ws) 0 t = decide (w.start ≤ t ∧ t ≤ w.endSeconds) := rfl

theorem unitMatches_cons_succ (w : WordTimestamp) (ws : List WordTimestamp) (j : Nat) (t : ℚ) :
    unitMatches (w :: ws) (j + 1) t = unitMatches ws j t := rfl

theorem unitMatches_nil (j : Nat) (t : ℚ) : unitMatches [] j t = false := by
  cases j <;> rfl

theorem unitMatches_true_lt_length {words : List WordTimestamp} {j : Nat} {t : ℚ}
    (h : unitMatches words j t = true) : j < words.length := by
  by_contra hlen
  have hnone : words.get? j = none := List.get?_eq_none.mpr (Nat.le_of_not_lt hlen)
  unfold unitMatches at h
  rw [hnone] at h
  exact Bool.false_ne_true h

theorem findCurrentWordAux_none_iff (t : ℚ) (ws : List WordTimestamp) (i : Nat) :
    findCurrentWordAux t ws i = none ↔ ∀ j, unitMatches ws j t = false := by
  induction ws generalizing i with
  | nil =>
    simp [findCurrentWordAux, unitMatches_nil]
  | cons w ws ih =>
    by_cases h : w.start ≤ t ∧ t ≤ w.endSeconds
    · simp only [findCurrentWordAux, if_pos h]
      constructor
      · intro hcontra; exact absurd hcontra (by simp)
      · intro hall
        have h0 := hall 0
        rw [unitMatches_cons_zero] at h0
        simp [h] at h0
    · simp only [findCurrentWordAux, if_neg h]
      rw [ih (i + 1)]
      constructor
      · intro hall j
        cases j with
        | zero => rw [unitMatches_cons_zero]; simpa using h
        | succ j => rw [unitMatches_cons_succ]; exact hall j
      · intro hall j
        have := hall (j + 1)
        rwa [unitMatches_cons_succ] at this

theorem findCurrentWordAux_some_iff (t : ℚ) (ws : List WordTimestamp) (i k : Nat) :
    findCurrentWordAux t ws i = some k ↔
      ∃ m, k = i + m ∧ unitMatches ws m t = true ∧
        ∀ j, j < m → unitMatches ws j t = false := by
  induction ws generalizing i k with
  | nil =>
    simp [findCurrentWordAux, unitMatches_nil]
  | cons w ws ih =>
    by_cases h : w.start ≤ t ∧ t ≤ w.endSeconds
    · simp only [findCurrentWordAux, if_pos h]
      constructor
      · intro hk
        refine ⟨0, by simpa using (Option.some.inj hk).symm, ?_, ?_⟩
        · rw [unitMatches_cons_zero, decide_eq_true_eq]; exact h
        · intro j hj; exact absurd hj (Nat.not_lt_zero j)
      · rintro ⟨m, hkm, _, hmin⟩
        cases m with
        | zero => simp [hkm]
        | succ m =>
          have h0 := hmin 0 (Nat.succ_pos m)
          rw [unitMatches_cons_zero] at h0
          simp [h] at h0
    · simp only [findCurrentWordAux, if_neg h]
      rw [ih (i + 1) k]
      constructor
      · rintro ⟨m, hkm, hm, hmin⟩
        refine ⟨m + 1, by omega, by rwa [unitMatches_cons_succ], ?_⟩
        intro j hj
        cases j with
        | zero => rw [unitMatches_cons_zero]; simpa using h
        | succ j => rw [unitMatches_cons_succ]; exact hmin j (by omega)
      · rintro ⟨m, hkm, hm, hmin⟩
        cases m with
        | zero =>
          rw [unitMatches_cons_zero, decide_eq_true_eq] at hm
          exact absurd hm h
        | succ m =>
          refine ⟨m, by omega, by rwa [unitMatches_cons_succ] at hm, ?_⟩
          intro j hj
          have := hmin (j + 1) (by omega)
          rwa [unitMatches_cons_succ] at this

theorem findCurrentWord_none_iff (words : List WordTimestamp) (t : ℚ) :
    findCurrentWord words t = none ↔ ∀ j, unitMatches words j t = false :=
  findCurrentWordAux_none_iff t words 0

theorem findCurrentWord_some_iff (words : List WordTimestamp) (t : ℚ) (i : Nat) :
    findCurrentWord words t = some i ↔
      unitMatches words i t = true ∧ ∀ j, j < i → unitMatches words j t = false := by
  unfold findCurrentWord
  rw [findCurrentWordAux_some_iff]
  constructor
  · rintro ⟨m, hm, hmatch, hmin⟩
    subst hm
    simpa using ⟨hmatch, hmin⟩
  · rintro ⟨hmatch, hmin⟩
    exact ⟨i, by omega, hmatch, hmin⟩

/-- Per-component tracker state of audio-input.tsx: the useState cells
transcriptionResult, currentWordIndex and isPlaying (lines 59 to 64). The
wordIndex wrapper object is flattened to the index itself. -/
structure ComponentState where
  transcriptionResult : Option TranscriptionResult
  currentWordIndex : Option Nat
  isPlaying : Bool
deriving Repr, DecidableEq

/-- Embedding of handleUploadTranscriptionComplete (audio-input.tsx lines
184 to 187): stores the new result and notifies the parent; it touches no
other state cell. -/
def handleUploadTranscriptionComplete (result : TranscriptionResult)
    (s : ComponentState) : ComponentState :=
  { s with transcriptionResult := some result }

/-- Embedding of handleNewRecording (audio-input.tsx lines 165 to 173):
clears the result, the current word index and the playing flag. -/
def handleNewRecording (s : ComponentState) : ComponentState :=
  { s with transcriptionResult := none, currentWordIndex := none, isPlaying := false }

/-- Embedding of handlePlay (audio-input.tsx line 158). -/
def handlePlay (s : ComponentState) : ComponentState :=
  { s with isPlaying := true }

/-- Embedding of handlePause (audio-input.tsx line 159). -/
def handlePause (s : ComponentState) : ComponentState :=
  { s with isPlaying := false }

/-- Embedding of handleEnded (audio-input.tsx lines 160 to 163 and, with
identical body, audio-upload.tsx lines 198 to 201): stops playing and
clears the current word index. -/
def handleEnded (s : ComponentState) : ComponentState :=
  { s with isPlaying := false, currentWordIndex := none }

/-- Per-component state of audio-upload.tsx: the useState cells
selectedFile (kept as the file name), transcriptionResult,
currentWordIndex and isPlaying (lines 56 to 63). -/
structure UploadState where
  selectedFile : Option String
  transcriptionResult : Option TranscriptionResult
  currentWordIndex : Option Nat
  isPlaying : Bool
deriving Repr, DecidableEq

/-- Embedding of handleFileSelect (audio-upload.tsx lines 67 to 75): stores
the newly selected file and clears the previous result; currentWordIndex
and isPlaying are not touched. -/
def handleFileSelect (file : Option String) (s : UploadState) : UploadState :=
  { s with selectedFile := file, transcriptionResult := none }

/-- Embedding of the success path of transcribeAudio (audio-upload.tsx line
106): stores the enhanced result; no other state cell is written. -/
def transcribeComplete (result : TranscriptionResult) (s : UploadState) : UploadState :=
  { s with transcriptionResult := some result }

/-- Embedding of handleRemove (audio-upload.tsx lines 203 to 217): clears
the selected file, the result, the current word index and the playing
flag. -/
def handleRemove (s : UploadState) : UploadState :=
  { s with selectedFile := none, transcriptionResult := none,
           currentWordIndex := none, isPlaying := false }

/-- Embedding of handleEnded of audio-upload.tsx (lines 198 to 201), acting
on the upload component state. -/
def handleEndedUpload (s : UploadState) : UploadState :=
  { s with isPlaying := false, currentWordIndex := none }

/-- Command a word-span click issues to the playback surface: assignment of
currentTime followed by play (audio-input.tsx lines 361 to 367 and
audio-upload.tsx lines 423 to 429). -/
structure SeekCommand where
  seekTime : ℚ
  play : Bool
deriving Repr, DecidableEq

/-- Commands emitted when the word span of the given index is clicked. The
renderer creates one onClick closure per list entry, capturing that word;
an index with no corresponding word has no span and hence no command. The
handler sets currentTime to word.start and calls play; it performs no
setState call. -/
def wordClick (words : List WordTimestamp) (i : Nat) : Option SeekCommand :=
  (words.get? i).map fun w => { seekTime := w.start, play := true }

/-- Tracker-state effect of a word-span click: the onClick body contains no
setState call, so the component state is returned unchanged. -/
def wordClickState (s : ComponentState) : ComponentState := s

/-- Word emphasis condition of the word-level renderer: the className
ternary applies the underline font-bold classes exactly when isCurrentWord
and isPlaying hold, where isCurrentWord compares
currentWordIndex?.wordIndex with the word index (audio-input.tsx lines 346
to 360 and audio-upload.tsx lines 408 to 422). -/
def isCurrentWordEmphasis (currentWordIndex : Option Nat) (isPlaying : Bool)
    (wordIndex : Nat) : Bool :=
  (currentWordIndex == some wordIndex) && isPlaying

/-- Embedding of the isCurrentSegment computation of the segment-level
renderer (audio-input.tsx lines 390 to 423, audio-upload.tsx lines 450 to
456): computed independently per segment as isPlaying together with an
inclusive interval-membership test of the clock. -/
def isCurrentSegment (isPlaying : Bool) (currentTime : ℚ)
    (segment : TranscriptionSegment) : Bool :=
  isPlaying && decide (segment.start ≤ currentTime) &&
    decide (currentTime ≤ segment.endSeconds)

/-- Emphasis shown for the segment at a given index of the rendered
segment list: the map over segments evaluates isCurrentSegment for each
entry separately; an out-of-range index has no rendered span. -/
def segmentEmphasis (isPlaying : Bool) (currentTime : ℚ)
    (segments : List TranscriptionSegment) (index : Nat) : Bool :=
  match segments.get? index with
  | some segment => isCurrentSegment isPlaying currentTime segment
  | none => false

/-- Rendering branch chosen for a result. -/
inductive DisplayChoice where
  | wordLevel (ws : List WordTimestamp)
  | segmentLevel (segs : List TranscriptionSegment)
  | plainText (t : String)
deriving Repr, DecidableEq

/-- Embedding of the renderer branch selection ternary (audio-input.tsx
lines 341 to 436, audio-upload.tsx lines 403 to 494): word-level when the
words field is present, else segment-level when segments is present, else
plain text. In the source the test is JavaScript truthiness of the field,
which for an array value (including the empty array) is presence. -/
def displayedUnits (r : TranscriptionResult) : DisplayChoice :=
  match r.words with
  | some ws => DisplayChoice.wordLevel ws
  | none =>
    match r.segments with
    | some segs => DisplayChoice.segmentLevel segs
    | none => DisplayChoice.plainText r.text

/-- File extracted from the multipart form by the route, after the fields
of the Web File object the route reads: name, type (rendered fileType) and
size in bytes. -/
structure UploadedFile where
  name : String
  fileType : String
  size : Nat
deriving Repr, DecidableEq

/-- The Whisper size limit of route.ts line 29: 25 times 1024 times 1024
bytes. -/
def maxAudioSize : Nat := 25 * 1024 * 1024

/-- The required MIME prefix of route.ts line 21. -/
def audioMime : String := "audio/"

/-- Embedding of file.type.startsWith of route.ts line 21. The builtin
byte-level String.startsWith does not reduce in the kernel, so the
equivalent character-prefix test on the underlying character lists is
used. -/
def mimeIsAudio (mime : String) : Bool :=
  audioMime.data.isPrefixOf mime.data

/-- Error message of route.ts line 15. -/
def errNoFile : String := "No audio file provided"

/-- Error message of route.ts line 23. -/
def errBadMime : String := "Invalid file type. Please upload an audio file."

/-- Error message of route.ts line 32. -/
def errTooLarge : String := "File too large. Maximum size is 25MB."

/-- Embedding of the validation prefix of POST (route.ts lines 11 to 35):
missing audio field, then MIME prefix check, then strict size check; some
gives the early 400 response status and error string, none means
validation passed. -/
def validateTranscribeRequest (file : Option UploadedFile) : Option (Nat × String) :=
  match file with
  | none => some (400, errNoFile)
  | some f =>
    if mimeIsAudio f.fileType = false then some (400, errBadMime)
    else if maxAudioSize < f.size then some (400, errTooLarge)
    else none

/-- Vendor verbose transcription consumed by the route, after the fields
of the Whisper verbose response the route reads (route.ts lines 51 to
55). -/
structure VerboseTranscription where
  text : String
  duration : ℚ
  language : String
  segments : Option (List TranscriptionSegment)
deriving Repr, DecidableEq

/-- Embedding of the success response object of POST (route.ts lines 51 to
63): exactly the fields text, duration, language, segments and metadata
are set; the words, audioUrl and audioFileName fields of the result type
are never produced by the route. -/
def buildTranscribeResponse (processedAt : String) (t : VerboseTranscription) :
    TranscriptionResult :=
  { text := t.text
    duration := some t.duration
    language := some t.language
    segments := t.segments
    words := none
    audioUrl := none
    audioFileName := none
    metadata := some { processedAt := processedAt, model := "whisper-1",
                       medicalContext := true, confidence := "high",
                       hasWordTimestamps := none } }

theorem unitMatches_all_false_of_bounded {words : List WordTimestamp} {t : ℚ}
    (h : ∀ j, j < words.length → unitMatches words j t = false) :
    ∀ j, unitMatches words j t = false := by
  intro j
  by_cases hj : j < words.length
  · exact h j hj
  · cases hm : unitMatches words j t with
    | false => rfl
    | true => exact absurd (unitMatches_true_lt_length hm) hj

/-- Two-unit scenario transcript with a gap, integer-valued timestamps. -/
def scenarioWords : List WordTimestamp :=
  [{ word := "a", start := 0, endSeconds := 1 },
   { word := "b", start := 2, endSeconds := 3 }]

/-- Malformed transcript with overlapping word intervals. -/
def overlapWords : List WordTimestamp :=
  [{ word := "a", start := 0, endSeconds := 2 },
   { word := "b", start := 1, endSeconds := 3 }]

/-- First of two overlapping segments. -/
def overlapSeg0 : TranscriptionSegment :=
  { id := 0, seek := 0, start := 0, endSeconds := 2, text := "s0", tokens := [],
    temperature := 0, avg_logprob := 0, compression_ratio := 0, no_speech_prob := 0 }

/-- Second of two overlapping segments; its interval contains clock value 1
together with the first segment. -/
def overlapSeg1 : TranscriptionSegment :=
  { id := 1, seek := 0, start := 1, endSeconds := 3, text := "s1", tokens := [],
    temperature := 0, avg_logprob := 0, compression_ratio := 0, no_speech_prob := 0 }

/-- Malformed segment transcript with overlapping intervals. -/
def overlapSegments : List TranscriptionSegment := [overlapSeg0, overlapSeg1]

/-- A result carrying word-level units. -/
def exResultNew : TranscriptionResult :=
  { text := "new", duration := none, language := none, segments := none,
    words := some scenarioWords, audioUrl := none, audioFileName := none,
    metadata := none }

/-- A result carrying both word-level and segment-level units. -/
def exBothResult : TranscriptionResult :=
  { text := "both", duration := none, language := none,
    segments := some overlapSegments, words := some scenarioWords,
    audioUrl := none, audioFileName := none, metadata := none }

/-- Upload component state while a previous result is displayed, playing,
with word index 3 highlighted. -/
def exUploadState : UploadState :=
  { selectedFile := some "old.mp3", transcriptionResult := some exResultNew,
    currentWordIndex := some 3, isPlaying := true }

/-- Audio-input component state with an active highlight. -/
def exComponentState : ComponentState :=
  { transcriptionResult := some exResultNew, currentWordIndex := some 3,
    isPlaying := true }

/-- Claim C1: for every transcript and clock value, findCurrentWord returns
some i exactly when i is the least index whose inclusive interval contains
the clock value, and none exactly when no unit interval contains it,
including gaps, clock outside all units and the empty transcript. -/
theorem locate_first_containing_interval (words : List WordTimestamp) (t : ℚ) :
    (findCurrentWord words t = none ↔ ∀ j, unitMatches words j t = false) ∧
    (∀ i, findCurrentWord words t = some i ↔
      unitMatches words i t = true ∧ ∀ j, j < i → unitMatches words j t = false) :=
  ⟨findCurrentWord_none_iff words t, fun i => findCurrentWord_some_iff words t i⟩

/-- Witness for C1 on the scenario transcript: clock 1 lies in the first
unit and is located at index 0; clock 4 lies past every unit and is not
located. -/
theorem locate_first_containing_interval_witness :
    findCurrentWord scenarioWords 1 = some 0 ∧ findCurrentWord scenarioWords 4 = none := by
  constructor
  · exact ((locate_first_containing_interval scenarioWords 1).2 0).mpr
      (by refine ⟨by decide, ?_⟩; intro j hj; exact absurd hj (Nat.not_lt_zero j))
  · exact (locate_first_containing_interval scenarioWords 4).1.mpr
      (unitMatches_all_false_of_bounded (by decide))

/-- Claim C2 counterexample: the claim asserts the first-match tie-break
for whichever granularity is active, but at segment granularity the
renderer computes emphasis independently per segment: at clock value 1
inside both overlapping segments, the segment at index 1 is emphasized
even though the lower index 0 also matches, so no lowest-index choice is
made. -/
theorem overlap_segment_counterexample :
    segmentEmphasis true 1 overlapSegments 0 = true ∧
    segmentEmphasis true 1 overlapSegments 1 = true := by
  constructor <;> decide

/-- Claim C2 amended: for word-level granularity, findCurrentWord never
returns an index above a matching one, so the first matching unit in
sequence order wins; for segment-level granularity there is no single
selected index: each rendered segment is emphasized independently exactly
when playing and its inclusive interval contains the clock, so overlapping
matching segments are emphasized simultaneously. -/
theorem overlap_tie_break :
    (∀ (words : List WordTimestamp) (t : ℚ) (i j : Nat),
      unitMatches words i t = true → i < j → ¬ findCurrentWord words t = some j) ∧
    (∀ (playing : Bool) (t : ℚ) (segs : List TranscriptionSegment) (k : Nat)
      (seg : TranscriptionSegment), segs.get? k = some seg →
      (segmentEmphasis playing t segs k = true ↔
        playing = true ∧ seg.start ≤ t ∧ t ≤ seg.endSeconds)) := by
  constructor
  · intro words t i j hi hij hsome
    have hmin := ((findCurrentWord_some_iff words t j).mp hsome).2 i hij
    rw [hi] at hmin
    simp at hmin
  · intro playing t segs k seg hk
    unfold segmentEmphasis
    rw [hk]
    simp [isCurrentSegment, Bool.and_eq_true, and_assoc]

/-- Witness for the amended C2: on the overlapping word transcript at
clock 1 the scan cannot return index 1 because index 0 matches, and the
overlapping segment at index 0 is emphasized while playing at clock 1. -/
theorem overlap_tie_break_witness :
    (¬ findCurrentWord overlapWords 1 = some 1) ∧
    segmentEmphasis true 1 overlapSegments 0 = true := by
  constructor
  · exact overlap_tie_break.1 overlapWords 1 0 1 (by decide) (by decide)
  · exact (overlap_tie_break.2 true 1 overlapSegments 0 overlapSeg0 rfl).mpr
      (by refine ⟨rfl, by decide, by decide⟩)

/-- Claim C3 counterexample: selecting a new file while a result is
displayed (handleFileSelect) and then receiving the new transcript
(transcribeComplete) leaves the stale currentWordIndex some 3 and
isPlaying true in place, so the tracker state is not reset to none and
false before the new transcript is current; the same holds for
handleUploadTranscriptionComplete in audio-input.tsx. -/
theorem stale_highlight_counterexample :
    ((transcribeComplete exResultNew (handleFileSelect (some "new.mp3") exUploadState)).currentWordIndex
        = some 3) ∧
    ((transcribeComplete exResultNew (handleFileSelect (some "new.mp3") exUploadState)).isPlaying
        = true) ∧
    ((handleUploadTranscriptionComplete exResultNew exComponentState).currentWordIndex = some 3) ∧
    ¬ ((transcribeComplete exResultNew (handleFileSelect (some "new.mp3") exUploadState)).currentWordIndex
        = none ∧
       (transcribeComplete exResultNew (handleFileSelect (some "new.mp3") exUploadState)).isPlaying
        = false) := by
  refine ⟨rfl, rfl, rfl, ?_⟩
  rintro ⟨h, -⟩
  exact Option.some_ne_none 3 h

/-- Claim C3 amended: loading a new transcript result does not itself
reset the tracker state: handleUploadTranscriptionComplete and the
transcribeAudio success path only store the new result and
handleFileSelect only clears the transcript, all preserving
currentWordIndex and isPlaying; the reset to none and false is performed
only by the explicit clear actions handleNewRecording and handleRemove,
so a stale highlight can carry over until the next clock update. -/
theorem transcript_load_reset_amended :
    (∀ (r : TranscriptionResult) (s : ComponentState),
      (handleUploadTranscriptionComplete r s).currentWordIndex = s.currentWordIndex ∧
      (handleUploadTranscriptionComplete r s).isPlaying = s.isPlaying ∧
      (handleUploadTranscriptionComplete r s).transcriptionResult = some r) ∧
    (∀ (f : Option String) (s : UploadState),
      (handleFileSelect f s).transcriptionResult = none ∧
      (handleFileSelect f s).currentWordIndex = s.currentWordIndex ∧
      (handleFileSelect f s).isPlaying = s.isPlaying) ∧
    (∀ (r : TranscriptionResult) (s : UploadState),
      (transcribeComplete r s).currentWordIndex = s.currentWordIndex ∧
      (transcribeComplete r s).isPlaying = s.isPlaying) ∧
    (∀ s : ComponentState,
      (handleNewRecording s).transcriptionResult = none ∧
      (handleNewRecording s).currentWordIndex = none ∧
      (handleNewRecording s).isPlaying = false) ∧
    (∀ s : UploadState,
      (handleRemove s).transcriptionResult = none ∧
      (handleRemove s).currentWordIndex = none ∧
      (handleRemove s).isPlaying = false) :=
  ⟨fun _ _ => ⟨rfl, rfl, rfl⟩, fun _ _ => ⟨rfl, rfl, rfl⟩, fun _ _ => ⟨rfl, rfl⟩,
   fun _ => ⟨rfl, rfl, rfl⟩, fun _ => ⟨rfl, rfl, rfl⟩⟩

/-- Claim C4: from every prior tracker state, the onEnded handler of
either component yields currentWordIndex none and isPlaying false. -/
theorem onEnded_resets :
    (∀ s : ComponentState,
      (handleEnded s).currentWordIndex = none ∧ (handleEnded s).isPlaying = false) ∧
    (∀ s : UploadState,
      (handleEndedUpload s).currentWordIndex = none ∧
      (handleEndedUpload s).isPlaying = false) :=
  ⟨fun _ => ⟨rfl, rfl⟩, fun _ => ⟨rfl, rfl⟩⟩

/-- Claim C5: a click on the word span at an in-range index commands the
playback surface to the start of that unit with play, an out-of-range
index has no span and emits no command, and the click performs no tracker
state update. -/
theorem seekTo_click_contract (words : List WordTimestamp) (i : Nat) :
    (∀ h : i < words.length,
      wordClick words i = some { seekTime := (words.get ⟨i, h⟩).start, play := true }) ∧
    (words.length ≤ i → wordClick words i = none) ∧
    (∀ s : ComponentState, wordClickState s = s) := by
  refine ⟨?_, ?_, fun _ => rfl⟩
  · intro h
    unfold wordClick
    rw [List.get?_eq_get h]
    rfl
  · intro h
    unfold wordClick
    rw [List.get?_eq_none.mpr h]
    rfl

/-- Witness for C5 on the scenario transcript: clicking index 1 seeks to
its start time 2 and plays; index 5 is out of range and emits nothing. -/
theorem seekTo_click_contract_witness :
    wordClick scenarioWords 1 = some { seekTime := 2, play := true } ∧
    wordClick scenarioWords 5 = none := by
  constructor
  · exact (seekTo_click_contract scenarioWords 1).1 (by decide)
  · exact (seekTo_click_contract scenarioWords 5).2.1 (by decide)

/-- Claim C6: active-word emphasis holds exactly when playing and the word
index equals the tracked current index; in particular a paused tracker
shows no emphasis at any index. -/
theorem emphasis_gated_on_playing :
    (∀ (cwi : Option Nat) (playing : Bool) (i : Nat),
      isCurrentWordEmphasis cwi playing i = true ↔ playing = true ∧ cwi = some i) ∧
    (∀ (cwi : Option Nat) (i : Nat), isCurrentWordEmphasis cwi false i = false) := by
  constructor
  · intro cwi playing i
    simp [isCurrentWordEmphasis, Bool.and_eq_true, and_comm]
  · intro cwi i
    simp [isCurrentWordEmphasis]

/-- Claim C7: when a result carries both word-level and segment-level
sequences, the renderer branch selection picks the word-level sequence and
ignores the segment-level one. -/
theorem word_level_precedence (r : TranscriptionResult) (ws : List WordTimestamp)
    (segs : List TranscriptionSegment) (hw : r.words = some ws)
    (_hs : r.segments = some segs) :
    displayedUnits r = DisplayChoice.wordLevel ws := by
  unfold displayedUnits
  rw [hw]

/-- Witness for C7: a result with both granularities renders the word
sequence. -/
theorem word_level_precedence_witness :
    displayedUnits exBothResult = DisplayChoice.wordLevel scenarioWords :=
  word_level_precedence exBothResult scenarioWords overlapSegments rfl rfl

/-- Claim C8: findCurrentWord is a total pure function: on every
transcript, including the empty one and malformed timestamp data, and
every clock value it returns either none or a valid index within bounds
whose interval contains the clock; no error branch exists. -/
theorem locate_total_safe (words : List WordTimestamp) (t : ℚ) :
    findCurrentWord words t = none ∨
      ∃ i, i < words.length ∧ findCurrentWord words t = some i ∧
        unitMatches words i t = true := by
  cases hfc : findCurrentWord words t with
  | none => exact Or.inl rfl
  | some k =>
    have hk := (findCurrentWord_some_iff words t k).mp hfc
    exact Or.inr ⟨k, unitMatches_true_lt_length hk.1, rfl, hk.1⟩

/-- Audio file accepted by every validation check, at the exact size
boundary. -/
def fileOk : UploadedFile :=
  { name := "a.mp3", fileType := "audio/mpeg", size := 26214400 }

/-- Audio file one byte over the size limit. -/
def fileBig : UploadedFile :=
  { name := "b.mp3", fileType := "audio/mpeg", size := 26214401 }

/-- File with a non-audio MIME type. -/
def fileText : UploadedFile :=
  { name := "c.txt", fileType := "text/plain", size := 5 }

/-- Claim C9: the route rejects a missing audio field, a MIME type without
the audio prefix, and a size strictly above 26214400 bytes, each with
status 400 and a human-readable error string, and accepts an audio file of
size at most 26214400 bytes, the exact boundary included; the limit
expression 25 times 1024 times 1024 equals 26214400. -/
theorem transcribe_validation_boundaries (f : UploadedFile) :
    validateTranscribeRequest none = some (400, errNoFile) ∧
    (mimeIsAudio f.fileType = false →
      validateTranscribeRequest (some f) = some (400, errBadMime)) ∧
    (mimeIsAudio f.fileType = true → 26214400 < f.size →
      validateTranscribeRequest (some f) = some (400, errTooLarge)) ∧
    (mimeIsAudio f.fileType = true → f.size ≤ 26214400 →
      validateTranscribeRequest (some f) = none) ∧
    maxAudioSize = 26214400 := by
  have hmax : maxAudioSize = 26214400 := by norm_num [maxAudioSize]
  refine ⟨rfl, ?_, ?_, ?_, hmax⟩
  · intro h
    simp [validateTranscribeRequest, h]
  · intro h hsize
    simp [validateTranscribeRequest, h, hmax, hsize]
  · intro h hsize
    simp [validateTranscribeRequest, h, hmax]
    omega

/-- Witness for C9: the boundary-size audio file passes, the file one byte
larger is rejected as too large, and the text file is rejected for its
MIME type. -/
theorem transcribe_validation_boundaries_witness :
    validateTranscribeRequest (some fileOk) = none ∧
    validateTranscribeRequest (some fileBig) = some (400, errTooLarge) ∧
    validateTranscribeRequest (some fileText) = some (400, errBadMime) := by
  refine ⟨?_, ?_, ?_⟩
  · exact (transcribe_validation_boundaries fileOk).2.2.2.1 (by decide) (by decide)
  · exact (transcribe_validation_boundaries fileBig).2.2.1 (by decide) (by decide)
  · exact (transcribe_validation_boundaries fileText).2.1 (by decide)

/-- Claim C10: the successful route response sets exactly the fields text,
duration, language, segments and metadata, never words, so a result
produced by the route never selects the word-level rendering branch and
the renderer falls back to segment-level or plain text. -/
theorem route_response_words_absent (p : String) (t : VerboseTranscription) :
    (buildTranscribeResponse p t).text = t.text ∧
    (buildTranscribeResponse p t).duration = some t.duration ∧
    (buildTranscribeResponse p t).language = some t.language ∧
    (buildTranscribeResponse p t).segments = t.segments ∧
    (buildTranscribeResponse p t).words = none ∧
    (buildTranscribeResponse p t).audioUrl = none ∧
    (buildTranscribeResponse p t).audioFileName = none ∧
    (buildTranscribeResponse p t).metadata =
      some { processedAt := p, model := "whisper-1", medicalContext := true,
             confidence := "high", hasWordTimestamps := none } ∧
    displayedUnits (buildTranscribeResponse p t) =
      (match t.segments with
        | some segs => DisplayChoice.segmentLevel segs
        | none => DisplayChoice.plainText t.text) := by
  refine ⟨rfl, rfl, rfl, rfl, rfl, rfl, rfl, rfl, ?_⟩
  cases hs : t.segments with
  | none => simp [displayedUnits, buildTranscribeResponse, hs]
  | some segs => simp [displayedUnits, buildTranscribeResponse, hs]
